import Mathlib

/-!
Shallow embedding of the kong-ingress controller
(`src/pkg/controller/controller.go`) and theorems checking the
natural-language specification against it.

External collaborators (the orchestrator client, the Kong REST client,
the identity-provider client) are modelled as oracles: pure functions
giving the response of each outgoing call.  Every sync procedure is
translated to a pure function returning the list of outgoing calls it
performed (its trace) together with its `error` result.
-/

namespace KongIngress

/-! ## Module-level constants (`controller.go` lines 40-44 and annotation keys) -/

/-- Translated from `controller.go line 42`: prefix of plugin annotations. -/
def pluginPfx : String := "kolihub.io/plugin-"

/-- Translated from `controller.go line 43`: key of the JWT/Auth0 host annotation. -/
def jwtAuth0DomainKey : String := "kolihub.io/x-jwt-auth0-domain"

/-- Key of the dirty marker annotation (`setDirty`, `controller.go` lines 655-664). -/
def dirtyKey : String := "kolihub.io/dirty"

/-- Key of the strip-uri annotation (`controller.go` line 516). -/
def stripUriKey : String := "ingress.kubernetes.io/strip-uri"

/-- Key of the preserve-host annotation (`controller.go` line 522). -/
def preserveHostKey : String := "ingress.kubernetes.io/preserve-host"

/-! ## Small helpers -/

/-- Go map lookup `m[key]`: the zero value `""` when the key is absent.
Annotation maps are modelled as association lists. -/
def annGet (anns : List (String × String)) (key : String) : String :=
  match List.lookup key anns with
  | some v => v
  | none => ""

/-- Go `strconv.ParseBool`: accepts exactly
`1, t, T, TRUE, true, True` and `0, f, F, FALSE, false, False`. -/
def parseBool (s : String) : Option Bool :=
  if s == "1" || s == "t" || s == "T" || s == "TRUE" || s == "true" || s == "True" then some true
  else if s == "0" || s == "f" || s == "F" || s == "FALSE" || s == "false" || s == "False" then some false
  else none

/-- Modelled from the spec (§4.3): the repository function `GenAdler32Hash`
(package `pkg/kong`) is not under `src/`; per the spec the hash is the
standard Adler-32 checksum of the path.  Running sums `a` and `b` start at
`1` and `0`, each byte updates `a := (a+byte) mod 65521` and
`b := (b+a) mod 65521`, and the checksum is `b * 65536 + a`. -/
def adler32 (bytes : List Nat) : Nat :=
  let s := bytes.foldl
    (fun (ab : Nat × Nat) b =>
      let a := (ab.1 + b) % 65521
      (a, (ab.2 + a) % 65521))
    (1, 0)
  s.2 * 65536 + s.1

/-- Modelled from the spec (§4.3): `GenAdler32Hash` encodes the Adler-32
checksum of the UTF-8 bytes of the string as decimal. -/
def genAdler32Hash (s : String) : String :=
  toString (adler32 (s.toUTF8.toList.map UInt8.toNat))

/-- Translated from `controller.go` lines 503-508: an empty ingress path and
the root path `/` are normalized to `/` before hashing. -/
def normalizePath (p : String) : String :=
  if p == "/" || p == "" then "/" else p

/-- Translated from `controller.go` line 509: the gateway API name
`{host}~{namespace}~{adler32(pathURI)}`. -/
def apiNameFor (host ns path : String) : String :=
  host ++ "~" ++ ns ++ "~" ++ genAdler32Hash (normalizePath path)

/-- Translated from `getUpstream` (`controller.go` lines 575-582):
`fmt.Sprintf("%s://%s.%s.%s:%d", proto, svcName, ns, clusterDNS, svcPort)`. -/
def getUpstream (proto ns svcName : String) (svcPort : Int) (clusterDNS : String) : String :=
  proto ++ "://" ++ svcName ++ "." ++ ns ++ "." ++ clusterDNS ++ ":" ++ toString svcPort

/-- Modelled from the spec (§4.4c and §8): the upstream URL is
`{proto}://{svcName}.{namespace}.{clusterDNS}:{port}` with
`proto = "https"` iff the port is `443`, else `"http"`.
Stated from the spec's words, to be compared with the source functions. -/
def upstreamSpec (ns svcName : String) (port : Int) (clusterDNS : String) : String :=
  (if port == 443 then "https" else "http") ++ "://" ++ svcName ++ "." ++ ns ++ "." ++
    clusterDNS ++ ":" ++ toString port

/-! ## Data model -/

/-- One HTTP path of an ingress rule: URI plus backend (`v1beta1.HTTPIngressPath`). -/
structure IngressPath where
  path : String
  serviceName : String
  servicePort : Int
deriving DecidableEq

/-- One ingress rule: host plus optional HTTP section (`v1beta1.IngressRule`). -/
structure IngressRule where
  host : String
  http : Option (List IngressPath)
deriving DecidableEq

/-- One TLS binding of an ingress: secret name and hostnames (`v1beta1.IngressTLS`). -/
structure IngressTLS where
  secretName : String
  hosts : List String
deriving DecidableEq

/-- The observed part of an ingress resource. -/
structure Ingress where
  name : String
  ns : String
  annotations : List (String × String)
  rules : List IngressRule
  tls : List IngressTLS
deriving DecidableEq

/-- The observed part of a service resource: ports and deletion timestamp. -/
structure Service where
  name : String
  ns : String
  ports : List Int
  deletionTimestamp : Option String
deriving DecidableEq

/-- The gateway API record built by `syncIngress` (`kong.API`).  `hosts` and
`uris` are `none` when the corresponding Go slice field is left nil. -/
structure KongAPI where
  name : String
  upstreamURL : String
  stripUri : Bool
  preserveHost : Bool
  hosts : Option (List String)
  uris : Option (List String)
  uid : String
  createdAt : Int
deriving DecidableEq

/-! ## Service sync (garbage collection), `syncServices`, `controller.go` lines 194-236 -/

/-- Outgoing calls made by `syncServices`. -/
inductive SvcAction where
  | listAPIs (upstream : String)
  | deleteAPI (name : String)
  | patchFinalizers (ns name : String)
deriving DecidableEq

/-- Oracles for the external calls of `syncServices`. -/
structure SvcEnv where
  apiList : String → Except String (List String)
  deleteAPI : String → Except String Unit
  patchSvc : String → String → Except String Unit

/-- Translated from `controller.go` lines 220-225: delete every Kong API of
the listed page, aborting on the first failure. -/
def deleteAPIs (env : SvcEnv) : List String → List SvcAction × Except String Unit
  | [] => ([], Except.ok ())
  | n :: rest =>
    match env.deleteAPI n with
    | Except.ok _ =>
      let r := deleteAPIs env rest
      (SvcAction.deleteAPI n :: r.1, r.2)
    | Except.error e =>
      ([SvcAction.deleteAPI n], Except.error ("gc=true, failed removing kong api " ++ n ++ ", [" ++ e ++ "]"))

/-- Translated from the body of the port loop of `syncServices`
(`controller.go` lines 208-233): compute the upstream URL, list the Kong
APIs with that upstream, delete each, then patch the service finalizers.
The finalizer patch sits inside the per-port loop in the source. -/
def syncServicePort (env : SvcEnv) (clusterDNS ns name : String) (port : Int) :
    List SvcAction × Except String Unit :=
  let proto := if port == 443 then "https" else "http"
  let upstreamURL := getUpstream proto ns name port clusterDNS
  match env.apiList upstreamURL with
  | Except.error e =>
    ([SvcAction.listAPIs upstreamURL], Except.error ("gc=true, failed listing apis [" ++ e ++ "]"))
  | Except.ok apis =>
    let d := deleteAPIs env apis
    match d.2 with
    | Except.error e => (SvcAction.listAPIs upstreamURL :: d.1, Except.error e)
    | Except.ok _ =>
      match env.patchSvc ns name with
      | Except.ok _ =>
        (SvcAction.listAPIs upstreamURL :: d.1 ++ [SvcAction.patchFinalizers ns name], Except.ok ())
      | Except.error e =>
        (SvcAction.listAPIs upstreamURL :: d.1 ++ [SvcAction.patchFinalizers ns name],
          Except.error ("gc=true, failed patch service [" ++ e ++ "]"))

/-- The port loop of `syncServices` (`controller.go` line 208), aborting on
the first failing port. -/
def syncPorts (env : SvcEnv) (clusterDNS ns name : String) :
    List Int → List SvcAction × Except String Unit
  | [] => ([], Except.ok ())
  | p :: rest =>
    let r := syncServicePort env clusterDNS ns name p
    match r.2 with
    | Except.error e => (r.1, Except.error e)
    | Except.ok _ =>
      let r2 := syncPorts env clusterDNS ns name rest
      (r.1 ++ r2.1, r2.2)

/-- Translated from `syncServices` (`controller.go` lines 194-236).  `store`
is the `GetByKey` result: error, missing, or the cached service.  A missing
service and a nil deletion timestamp both return success immediately. -/
def syncServices (env : SvcEnv) (clusterDNS : String)
    (store : Except String (Option Service)) : List SvcAction × Except String Unit :=
  match store with
  | Except.error e => ([], Except.error e)
  | Except.ok none => ([], Except.ok ())
  | Except.ok (some svc) =>
    match svc.deletionTimestamp with
    | none => ([], Except.ok ())
    | some _ => syncPorts env clusterDNS svc.ns svc.name svc.ports

/-! ## Ingress sync, `syncIngress`, `controller.go` lines 419-573 -/

/-- Outgoing calls made by `syncIngress` and its subroutines. -/
inductive IngAction where
  | patchDirty (ns name : String)
  | svcFinalizerPatch (ns svcName : String)
  | getAPI (name : String)
  | upsertAPI (body : KongAPI)
  | listPlugins (uid : String)
  | createPlugin (uid name config : String)
  | getSecret (ns name : String)
  | createCert (cert key : String) (snis : List String)
  | getPEM (host : String)
  | getConsumer (host : String)
  | createConsumer (host : String)
  | listJWT (host : String)
  | createJWT (host alg rsakey key : String)
deriving DecidableEq

/-- Result of `kongcli.API().Get` (`controller.go` line 510): the existing
API (uid and creation timestamp), a not-found response, or another error. -/
inductive GetAPIResult where
  | found (uid : String) (createdAt : Int)
  | notFound
  | fail (e : String)
deriving DecidableEq

/-- Result of `kongcli.API().UpdateOrCreate` (`controller.go` line 546);
conflicts are tolerated by the caller. -/
inductive UpsertResult where
  | ok (uid : String)
  | conflict (uid : String)
  | fail (e : String)
deriving DecidableEq

/-- Result of `GetConsumer` (`controller.go` lines 380-395): success,
a 404 response, or another error. -/
inductive ConsumerResult where
  | found
  | notFound
  | fail (e : String)
deriving DecidableEq

/-- Oracles for the external calls of `syncIngress`.  `services` is the
content of the service informer cache as (name, namespace) pairs;
`decode` is `json.Unmarshal` into the schema of the named plugin;
`listPlugins` returns the (name, config) pairs attached to an API uid;
`getSecret` returns (type, tls.crt, tls.key); `parseKey` is the
pem-decode / x509-parse / PKIX-marshal / pem-encode pipeline. -/
structure IngEnv where
  services : List (String × String)
  finPatch : String → Except String Unit
  getAPI : String → GetAPIResult
  upsert : KongAPI → UpsertResult
  decode : String → String → Bool
  listPlugins : String → Except String (List (String × String))
  createPlugin : String → String → String → Except String Unit
  getSecret : String → Except String (String × String × String)
  createCert : String → String → List String → Except String Unit
  getPEM : String → Except String String
  parseKey : String → Except String String
  getConsumer : String → ConsumerResult
  createConsumer : String → Except String Unit
  listJWT : String → Except String Int
  createJWT : String → String → String → String → Except String Unit

/-- Go `strings.HasPrefix`, on the character level. -/
def hasPrefixStr (pre s : String) : Bool :=
  pre.data.isPrefixOf s.data

/-- The remainder of Go `strings.TrimPrefix` when the prefix is present:
drop the first `n` characters. -/
def dropStr (s : String) (n : Nat) : String :=
  String.mk (s.data.drop n)

/-- Recognized plugin names (`controller.go` lines 247-262): the if/else
chain over `key-auth`, `cors`, `jwt`, `rate-limiting`. -/
def recognizedPlugin (n : String) : Bool :=
  n == "key-auth" || n == "cors" || n == "jwt" || n == "rate-limiting"

/-- Translated from the loop body of `ConfigurePluginsForAPI`
(`controller.go` lines 240-298): for an annotation key with the plugin
prefix, trim the prefix, reject unrecognized names, unmarshal the config,
list the plugins attached to the uid, skip creation when a plugin of that
name already exists, otherwise create it. -/
def configureOnePlugin (env : IngEnv) (uuid a v : String) : List IngAction × Except String Unit :=
  if hasPrefixStr pluginPfx a then
    let nm := dropStr a pluginPfx.length
    if recognizedPlugin nm then
      if env.decode nm v then
        match env.listPlugins uuid with
        | Except.error e => ([IngAction.listPlugins uuid], Except.error e)
        | Except.ok ps =>
          if ps.any (fun q => q.1 == nm) then
            ([IngAction.listPlugins uuid], Except.ok ())
          else
            match env.createPlugin uuid nm v with
            | Except.ok _ =>
              ([IngAction.listPlugins uuid, IngAction.createPlugin uuid nm v], Except.ok ())
            | Except.error e =>
              ([IngAction.listPlugins uuid, IngAction.createPlugin uuid nm v], Except.error e)
      else ([], Except.error ("Failed to unmarshal plugin config with " ++ a))
    else ([], Except.error ("Invlaid plugin " ++ nm))
  else ([], Except.ok ())

/-- Translated from `ConfigurePluginsForAPI` (`controller.go` lines 238-301):
iterate over all annotations, aborting on the first failure. -/
def ConfigurePluginsForAPI (env : IngEnv) (uuid : String) :
    List (String × String) → List IngAction × Except String Unit
  | [] => ([], Except.ok ())
  | (a, v) :: rest =>
    let r := configureOnePlugin env uuid a v
    match r.2 with
    | Except.error e => (r.1, Except.error e)
    | Except.ok _ =>
      let r2 := ConfigurePluginsForAPI env uuid rest
      (r.1 ++ r2.1, r2.2)

/-- Translated from the host loop body of `TryConfigureCertificates`
(`controller.go` lines 305-330): fetch the secret, require type
`kubernetes.io/tls`, post a certificate with the single-host SNI list. -/
def certForHost (env : IngEnv) (ns secretName h : String) : List IngAction × Except String Unit :=
  match env.getSecret secretName with
  | Except.error e => ([IngAction.getSecret ns secretName], Except.error e)
  | Except.ok s =>
    if s.1 == "kubernetes.io/tls" then
      match env.createCert s.2.1 s.2.2 [h] with
      | Except.ok _ =>
        ([IngAction.getSecret ns secretName, IngAction.createCert s.2.1 s.2.2 [h]], Except.ok ())
      | Except.error e =>
        ([IngAction.getSecret ns secretName, IngAction.createCert s.2.1 s.2.2 [h]], Except.error e)
    else
      ([IngAction.getSecret ns secretName],
        Except.error ("Secret Specified for Ingress is not a TLS Secret (found " ++ s.1 ++ " instead)"))

/-- The host loop of one TLS entry (`controller.go` line 305). -/
def certsForHosts (env : IngEnv) (ns secretName : String) :
    List String → List IngAction × Except String Unit
  | [] => ([], Except.ok ())
  | h :: rest =>
    let r := certForHost env ns secretName h
    match r.2 with
    | Except.error e => (r.1, Except.error e)
    | Except.ok _ =>
      let r2 := certsForHosts env ns secretName rest
      (r.1 ++ r2.1, r2.2)

/-- Translated from `TryConfigureCertificates` (`controller.go` lines 303-334):
the TLS entry loop. -/
def TryConfigureCertificates (env : IngEnv) (ns : String) :
    List IngressTLS → List IngAction × Except String Unit
  | [] => ([], Except.ok ())
  | t :: rest =>
    let r := certsForHosts env ns t.secretName t.hosts
    match r.2 with
    | Except.error e => (r.1, Except.error e)
    | Except.ok _ =>
      let r2 := TryConfigureCertificates env ns rest
      (r.1 ++ r2.1, r2.2)

/-- Translated from `TryAutoConfigureAuth0` after the consumer exists
(`controller.go` lines 397-414): list the JWT credentials and create an
`RS256` credential with key `https://{host}/` when the list is empty. -/
def auth0AfterConsumer (env : IngEnv) (host pubkey : String) (pre : List IngAction) :
    List IngAction × Except String Unit :=
  match env.listJWT host with
  | Except.error e => (pre ++ [IngAction.listJWT host], Except.error e)
  | Except.ok total =>
    if total == 0 then
      let key := "https://" ++ host ++ "/"
      match env.createJWT host "RS256" pubkey key with
      | Except.ok _ =>
        (pre ++ [IngAction.listJWT host, IngAction.createJWT host "RS256" pubkey key], Except.ok ())
      | Except.error e =>
        (pre ++ [IngAction.listJWT host, IngAction.createJWT host "RS256" pubkey key], Except.error e)
    else (pre ++ [IngAction.listJWT host], Except.ok ())

/-- Translated from `TryAutoConfigureAuth0` (`controller.go` lines 336-417):
do nothing unless the Auth0 host annotation is present and non-empty; fetch
the identity provider's certificate, extract its public key, ensure the
consumer exists (create on 404) and ensure one JWT credential exists. -/
def TryAutoConfigureAuth0 (env : IngEnv) (anns : List (String × String)) :
    List IngAction × Except String Unit :=
  let host := annGet anns jwtAuth0DomainKey
  if host == "" then ([], Except.ok ())
  else
    match env.getPEM host with
    | Except.error e => ([IngAction.getPEM host], Except.error e)
    | Except.ok pemData =>
      match env.parseKey pemData with
      | Except.error e => ([IngAction.getPEM host], Except.error e)
      | Except.ok pubkey =>
        match env.getConsumer host with
        | ConsumerResult.fail e =>
          ([IngAction.getPEM host, IngAction.getConsumer host], Except.error e)
        | ConsumerResult.notFound =>
          match env.createConsumer host with
          | Except.error e =>
            ([IngAction.getPEM host, IngAction.getConsumer host, IngAction.createConsumer host],
              Except.error e)
          | Except.ok _ =>
            auth0AfterConsumer env host pubkey
              [IngAction.getPEM host, IngAction.getConsumer host, IngAction.createConsumer host]
        | ConsumerResult.found =>
          auth0AfterConsumer env host pubkey [IngAction.getPEM host, IngAction.getConsumer host]

/-- Translated from `controller.go` lines 493-545: build the desired Kong
API record for one (rule, path) pair.  `existing` carries the uid and
creation timestamp of the API found by the preceding Get, if any. -/
def buildAPIBody (clusterDNS host ns : String) (p : IngressPath)
    (anns : List (String × String)) (existing : Option (String × Int)) : KongAPI :=
  let proto := if p.servicePort == 443 then "https" else "http"
  let upstreamURL := getUpstream proto ns p.serviceName p.servicePort clusterDNS
  let pathURI := normalizePath p.path
  let apiName := apiNameFor host ns p.path
  let stripUri :=
    match parseBool (annGet anns stripUriKey) with
    | some b => b
    | none => true
  let preserveHost :=
    match parseBool (annGet anns preserveHostKey) with
    | some b => b
    | none => false
  { name := apiName
    upstreamURL := upstreamURL
    stripUri := stripUri
    preserveHost := preserveHost
    hosts := if host == "" then none else some [host]
    uris := if p.path == "" then none else some [pathURI]
    uid := match existing with | some x => x.1 | none => ""
    createdAt := match existing with | some x => x.2 | none => 0 }

/-- Translated from `controller.go` lines 546-569: upsert the API body,
tolerate conflicts, then configure plugins, certificates and Auth0. -/
def afterUpsert (env : IngEnv) (ing : Ingress) (uid : String) (body : KongAPI) :
    List IngAction × Except String Unit :=
  let pl := ConfigurePluginsForAPI env uid ing.annotations
  match pl.2 with
  | Except.error e => (IngAction.upsertAPI body :: pl.1, Except.error e)
  | Except.ok _ =>
    let ct := TryConfigureCertificates env ing.ns ing.tls
    match ct.2 with
    | Except.error e => (IngAction.upsertAPI body :: pl.1 ++ ct.1, Except.error e)
    | Except.ok _ =>
      let au := TryAutoConfigureAuth0 env ing.annotations
      (IngAction.upsertAPI body :: pl.1 ++ ct.1 ++ au.1, au.2)

/-- The upsert step of one path (`controller.go` lines 528-549): a failure
other than a conflict aborts; on success or conflict the returned uid is
used for configuration. -/
def syncPathTail (env : IngEnv) (clusterDNS : String) (ing : Ingress) (host : String)
    (p : IngressPath) (existing : Option (String × Int)) : List IngAction × Except String Unit :=
  let body := buildAPIBody clusterDNS host ing.ns p ing.annotations existing
  match env.upsert body with
  | UpsertResult.fail e => ([IngAction.upsertAPI body], Except.error ("failed adding api: " ++ e))
  | UpsertResult.ok uid => afterUpsert env ing uid body
  | UpsertResult.conflict uid => afterUpsert env ing uid body

/-- Translated from the path loop body of `syncIngress`
(`controller.go` lines 465-570): check the backend service exists in the
cache, patch the cleanup finalizer onto it, look up the existing Kong API
by name (tolerating not-found), then upsert and configure. -/
def syncPath (env : IngEnv) (clusterDNS : String) (ing : Ingress) (host : String)
    (p : IngressPath) : List IngAction × Except String Unit :=
  if env.services.any (fun s => s.1 == p.serviceName && s.2 == ing.ns) then
    match env.finPatch p.serviceName with
    | Except.error e =>
      ([IngAction.svcFinalizerPatch ing.ns p.serviceName],
        Except.error ("failed configuring service: " ++ e))
    | Except.ok _ =>
      let apiName := apiNameFor host ing.ns p.path
      let pre := [IngAction.svcFinalizerPatch ing.ns p.serviceName, IngAction.getAPI apiName]
      match env.getAPI apiName with
      | GetAPIResult.fail e => (pre, Except.error ("failed listing api: " ++ e))
      | GetAPIResult.notFound =>
        let t := syncPathTail env clusterDNS ing host p none
        (pre ++ t.1, t.2)
      | GetAPIResult.found u c =>
        let t := syncPathTail env clusterDNS ing host p (some (u, c))
        (pre ++ t.1, t.2)
  else ([], Except.error ("Service " ++ p.serviceName ++ " not found"))

/-- The path loop of one rule (`controller.go` line 465). -/
def syncPaths (env : IngEnv) (clusterDNS : String) (ing : Ingress) (host : String) :
    List IngressPath → List IngAction × Except String Unit
  | [] => ([], Except.ok ())
  | p :: rest =>
    let r := syncPath env clusterDNS ing host p
    match r.2 with
    | Except.error e => (r.1, Except.error e)
    | Except.ok _ =>
      let r2 := syncPaths env clusterDNS ing host rest
      (r.1 ++ r2.1, r2.2)

/-- One rule of `syncIngress` (`controller.go` lines 458-462): a rule with
a nil HTTP section is skipped silently. -/
def syncRule (env : IngEnv) (clusterDNS : String) (ing : Ingress) (r : IngressRule) :
    List IngAction × Except String Unit :=
  match r.http with
  | none => ([], Except.ok ())
  | some ps => syncPaths env clusterDNS ing r.host ps

/-- The rule loop of `syncIngress` (`controller.go` line 458). -/
def syncRules (env : IngEnv) (clusterDNS : String) (ing : Ingress) :
    List IngressRule → List IngAction × Except String Unit
  | [] => ([], Except.ok ())
  | r :: rest =>
    let h := syncRule env clusterDNS ing r
    match h.2 with
    | Except.error e => (h.1, Except.error e)
    | Except.ok _ =>
      let r2 := syncRules env clusterDNS ing rest
      (h.1 ++ r2.1, r2.2)

/-- Translated from `setDirty` (`controller.go` lines 655-664): return
without calling the orchestrator when the ingress already carries
`kolihub.io/dirty=true`, otherwise patch the annotation.  `patchRes` is
the oracle result of that patch call. -/
def setDirty (patchRes : Except String Unit) (ing : Ingress) :
    List IngAction × Except String Unit :=
  if annGet ing.annotations dirtyKey == "true" then ([], Except.ok ())
  else ([IngAction.patchDirty ing.ns ing.name], patchRes)

/-- Translated from `syncIngress` (`controller.go` lines 419-573).  `store`
is the `GetByKey` result.  `autoClaimMaxRetries` is a repository constant
not under `src/`, so it is kept as a parameter.  The result of the dirty
patch is discarded by the source (only logged), hence only the trace of
`setDirty` contributes to the output. -/
def syncIngress (env : IngEnv) (clusterDNS : String) (store : Except String (Option Ingress))
    (numRequeues autoClaimMaxRetries : Int) (dirtyRes : Except String Unit) :
    List IngAction × Except String Unit :=
  match store with
  | Except.error e => ([], Except.error e)
  | Except.ok none => ([], Except.ok ())
  | Except.ok (some ing) =>
    let dirtyTrace :=
      if numRequeues > autoClaimMaxRetries then (setDirty dirtyRes ing).1 else []
    let tr := syncRules env clusterDNS ing ing.rules
    (dirtyTrace ++ tr.1, tr.2)

/-! ## Derived observations used by the theorems -/

/-- Whether an `Except` result is a success. -/
def exceptIsOk : Except String Unit → Bool
  | Except.ok _ => true
  | Except.error _ => false

/-- Whether an action is the dirty-annotation patch. -/
def isDirtyAction : IngAction → Bool
  | IngAction.patchDirty _ _ => true
  | _ => false

/-- Whether an action posts a certificate to the gateway. -/
def isCertPost : IngAction → Bool
  | IngAction.createCert _ _ _ => true
  | _ => false

/-- Whether an action fetches the identity provider's certificate
(the entry call of the Auth0 bootstrap). -/
def isPemFetch : IngAction → Bool
  | IngAction.getPEM _ => true
  | _ => false

/-- Number of paths of one rule, a nil HTTP section counting zero. -/
def rulePaths (r : IngressRule) : Nat :=
  match r.http with
  | none => 0
  | some ps => ps.length

/-- Number of (rule, path) pairs of a rule list, nil HTTP sections counting
zero. -/
def pathCount (rules : List IngressRule) : Nat :=
  (rules.map rulePaths).sum

/-- Total number of (TLS entry, host) pairs of an ingress spec. -/
def tlsHostCount (tls : List IngressTLS) : Nat :=
  (tls.map (fun t => t.hosts.length)).sum

/-- The gateway's plugin store: (api uid, plugin name, config) triples. -/
abbrev PluginState := List (String × String × String)

/-- How the gateway's plugin store reacts to one outgoing call: only
`createPlugin` changes it; no call of the controller modifies an existing
plugin. -/
def applyPluginAction (st : PluginState) : IngAction → PluginState
  | IngAction.createPlugin uid nm cfg => st ++ [(uid, nm, cfg)]
  | _ => st

/-- Fold of `applyPluginAction` over a trace. -/
def applyPluginActions (st : PluginState) (l : List IngAction) : PluginState :=
  l.foldl applyPluginAction st

/-! ## Concrete inputs used for evaluation -/

/-- An environment in which every external call succeeds: the service
`svc1` exists in namespace `app`, API lookups report not-found, upserts
return uid `uid-1`, the plugin list is empty, secrets are of TLS type,
the Auth0 consumer exists and has no JWT credential yet. -/
def envAllOk : IngEnv where
  services := [("svc1", "app")]
  finPatch := fun _ => Except.ok ()
  getAPI := fun _ => GetAPIResult.notFound
  upsert := fun _ => UpsertResult.ok "uid-1"
  decode := fun _ _ => true
  listPlugins := fun _ => Except.ok []
  createPlugin := fun _ _ _ => Except.ok ()
  getSecret := fun _ => Except.ok ("kubernetes.io/tls", "CRT", "KEY")
  createCert := fun _ _ _ => Except.ok ()
  getPEM := fun _ => Except.ok "PEMDATA"
  parseKey := fun _ => Except.ok "PUBKEY"
  getConsumer := fun _ => ConsumerResult.found
  createConsumer := fun _ => Except.ok ()
  listJWT := fun _ => Except.ok 0
  createJWT := fun _ _ _ _ => Except.ok ()

/-- Like `envAllOk` but the gateway already has a `cors` plugin with config
`old-config` attached to every API uid. -/
def envExisting : IngEnv :=
  { envAllOk with listPlugins := fun _ => Except.ok [("cors", "old-config")] }

/-- A garbage-collection environment in which every call succeeds and each
upstream has exactly one Kong API, named `api-` plus the upstream URL. -/
def svcEnvGC : SvcEnv where
  apiList := fun u => Except.ok ["api-" ++ u]
  deleteAPI := fun _ => Except.ok ()
  patchSvc := fun _ _ => Except.ok ()

/-- A deleted service with two ports. -/
def svcTwoPorts : Service where
  name := "web"
  ns := "app"
  ports := [80, 8080]
  deletionTimestamp := some "2017-01-01T00:00:00Z"

/-- An ingress whose only annotations are the strip-uri and preserve-host
keys, with arbitrary values. -/
def annOnlyIng (ns s t : String) : Ingress where
  name := "ing1"
  ns := ns
  annotations := [(stripUriKey, s), (preserveHostKey, t)]
  rules := []
  tls := []

/-- An ingress with one rule holding two paths, one TLS entry with one
host, and the Auth0 host annotation. -/
def ingTwoPaths : Ingress where
  name := "web-ing"
  ns := "app"
  annotations := [(jwtAuth0DomainKey, "tenant.example.com")]
  rules := [{ host := "api.example.com",
              http := some [{ path := "/v1", serviceName := "svc1", servicePort := 80 },
                            { path := "/v2", serviceName := "svc1", servicePort := 80 }] }]
  tls := [{ secretName := "tls-secret", hosts := ["api.example.com"] }]

/-! ## Helper lemmas: which actions each subroutine can emit -/

theorem countP_onePlugin_zero (p : IngAction → Bool)
    (h1 : ∀ u, p (IngAction.listPlugins u) = false)
    (h2 : ∀ u n c, p (IngAction.createPlugin u n c) = false)
    (env : IngEnv) (uuid a v : String) :
    List.countP p (configureOnePlugin env uuid a v).1 = 0 := by
  unfold configureOnePlugin
  try dsimp only
  repeat' split
  all_goals simp [List.countP_cons, h1, h2]

theorem countP_plugins_zero (p : IngAction → Bool)
    (h1 : ∀ u, p (IngAction.listPlugins u) = false)
    (h2 : ∀ u n c, p (IngAction.createPlugin u n c) = false)
    (env : IngEnv) (uuid : String) :
    ∀ anns, List.countP p (ConfigurePluginsForAPI env uuid anns).1 = 0 := by
  intro anns
  induction anns with
  | nil => simp [ConfigurePluginsForAPI]
  | cons hd tl ih =>
    obtain ⟨a, v⟩ := hd
    unfold ConfigurePluginsForAPI
    try dsimp only
    split <;> simp [List.countP_append, countP_onePlugin_zero p h1 h2, ih]

theorem countP_certForHost_zero (p : IngAction → Bool)
    (h1 : ∀ a b, p (IngAction.getSecret a b) = false)
    (h2 : ∀ c k s, p (IngAction.createCert c k s) = false)
    (env : IngEnv) (ns sn h : String) :
    List.countP p (certForHost env ns sn h).1 = 0 := by
  unfold certForHost
  try dsimp only
  repeat' split
  all_goals simp [List.countP_cons, h1, h2]

theorem countP_certsForHosts_zero (p : IngAction → Bool)
    (h1 : ∀ a b, p (IngAction.getSecret a b) = false)
    (h2 : ∀ c k s, p (IngAction.createCert c k s) = false)
    (env : IngEnv) (ns sn : String) :
    ∀ hs, List.countP p (certsForHosts env ns sn hs).1 = 0 := by
  intro hs
  induction hs with
  | nil => simp [certsForHosts]
  | cons h t ih =>
    unfold certsForHosts
    try dsimp only
    split <;> simp [List.countP_append, countP_certForHost_zero p h1 h2, ih]

theorem countP_certs_zero (p : IngAction → Bool)
    (h1 : ∀ a b, p (IngAction.getSecret a b) = false)
    (h2 : ∀ c k s, p (IngAction.createCert c k s) = false)
    (env : IngEnv) (ns : String) :
    ∀ tls, List.countP p (TryConfigureCertificates env ns tls).1 = 0 := by
  intro tls
  induction tls with
  | nil => simp [TryConfigureCertificates]
  | cons t rest ih =>
    unfold TryConfigureCertificates
    try dsimp only
    split <;> simp [List.countP_append, countP_certsForHosts_zero p h1 h2, ih]

theorem countP_auth0After_shift (p : IngAction → Bool)
    (h1 : ∀ h, p (IngAction.listJWT h) = false)
    (h2 : ∀ a b c d, p (IngAction.createJWT a b c d) = false)
    (env : IngEnv) (host pubkey : String) (pre : List IngAction) :
    List.countP p (auth0AfterConsumer env host pubkey pre).1 = List.countP p pre := by
  unfold auth0AfterConsumer
  try dsimp only
  repeat' split
  all_goals simp [List.countP_append, List.countP_cons, h1, h2]

theorem countP_auth0_zero (p : IngAction → Bool)
    (h1 : ∀ h, p (IngAction.getPEM h) = false)
    (h2 : ∀ h, p (IngAction.getConsumer h) = false)
    (h3 : ∀ h, p (IngAction.createConsumer h) = false)
    (h4 : ∀ h, p (IngAction.listJWT h) = false)
    (h5 : ∀ a b c d, p (IngAction.createJWT a b c d) = false)
    (env : IngEnv) (anns : List (String × String)) :
    List.countP p (TryAutoConfigureAuth0 env anns).1 = 0 := by
  unfold TryAutoConfigureAuth0
  try dsimp only
  repeat' split
  all_goals simp [countP_auth0After_shift p h4 h5, List.countP_cons, h1, h2, h3]

/-- The Auth0 bootstrap fetches the identity provider's certificate exactly
once when the host annotation is present and non-empty, never otherwise,
regardless of the outcome of any call. -/
theorem pem_auth0 (env : IngEnv) (anns : List (String × String)) :
    List.countP isPemFetch (TryAutoConfigureAuth0 env anns).1 =
      (if annGet anns jwtAuth0DomainKey == "" then 0 else 1) := by
  have hshift : ∀ host pubkey pre,
      List.countP isPemFetch (auth0AfterConsumer env host pubkey pre).1 =
        List.countP isPemFetch pre :=
    fun host pubkey pre =>
      countP_auth0After_shift isPemFetch (fun _ => rfl) (fun _ _ _ _ => rfl) env host pubkey pre
  unfold TryAutoConfigureAuth0
  try dsimp only
  repeat' split
  all_goals simp_all [hshift, List.countP_cons, isPemFetch]

/-- A successful `certForHost` posts exactly one certificate. -/
theorem cert_certForHost_ok (env : IngEnv) (ns sn h : String)
    (hok : (certForHost env ns sn h).2 = Except.ok ()) :
    List.countP isCertPost (certForHost env ns sn h).1 = 1 := by
  unfold certForHost at hok ⊢
  repeat' split at hok
  all_goals simp_all [List.countP_cons, isCertPost]

/-- A successful host loop posts one certificate per host. -/
theorem cert_certsForHosts_ok (env : IngEnv) (ns sn : String) :
    ∀ hs, (certsForHosts env ns sn hs).2 = Except.ok () →
      List.countP isCertPost (certsForHosts env ns sn hs).1 = hs.length := by
  intro hs
  induction hs with
  | nil => intro _; simp [certsForHosts]
  | cons h t ih =>
    intro hok
    unfold certsForHosts at hok ⊢
    try dsimp only at hok ⊢
    rcases hr : (certForHost env ns sn h).2 with e | u
    · rw [hr] at hok; simp at hok
    · rw [hr] at hok
      dsimp only at hok ⊢
      simp only [List.countP_append]
      rw [cert_certForHost_ok env ns sn h hr, ih hok]
      simp [Nat.add_comm]

/-- A successful `TryConfigureCertificates` posts one certificate per
(TLS entry, host) pair. -/
theorem cert_certs_ok (env : IngEnv) (ns : String) :
    ∀ tls, (TryConfigureCertificates env ns tls).2 = Except.ok () →
      List.countP isCertPost (TryConfigureCertificates env ns tls).1 = tlsHostCount tls := by
  intro tls
  induction tls with
  | nil => intro _; simp [TryConfigureCertificates, tlsHostCount]
  | cons t rest ih =>
    intro hok
    unfold TryConfigureCertificates at hok ⊢
    try dsimp only at hok ⊢
    rcases hr : (certsForHosts env ns t.secretName t.hosts).2 with e | u
    · rw [hr] at hok; simp at hok
    · rw [hr] at hok
      dsimp only at hok ⊢
      simp only [List.countP_append]
      rw [cert_certsForHosts_ok env ns t.secretName t.hosts hr, ih hok]
      simp [tlsHostCount]

/-- Certificate and PEM-fetch counts of a successful `afterUpsert` run. -/
theorem counts_afterUpsert_ok (env : IngEnv) (ing : Ingress) (uid : String) (body : KongAPI)
    (hok : (afterUpsert env ing uid body).2 = Except.ok ()) :
    List.countP isCertPost (afterUpsert env ing uid body).1 = tlsHostCount ing.tls
    ∧ List.countP isPemFetch (afterUpsert env ing uid body).1 =
        (if annGet ing.annotations jwtAuth0DomainKey == "" then 0 else 1) := by
  have hplc := countP_plugins_zero isCertPost (fun _ => rfl) (fun _ _ _ => rfl)
    env uid ing.annotations
  have hplp := countP_plugins_zero isPemFetch (fun _ => rfl) (fun _ _ _ => rfl)
    env uid ing.annotations
  have hauc := countP_auth0_zero isCertPost (fun _ => rfl) (fun _ => rfl) (fun _ => rfl)
    (fun _ => rfl) (fun _ _ _ _ => rfl) env ing.annotations
  have hctp := countP_certs_zero isPemFetch (fun _ _ => rfl) (fun _ _ _ => rfl)
    env ing.ns ing.tls
  unfold afterUpsert at hok ⊢
  try dsimp only at hok ⊢
  rcases hpl : (ConfigurePluginsForAPI env uid ing.annotations).2 with e | u
  · try rw [hpl] at hok
    simp at hok
  · try rw [hpl] at hok
    try dsimp only at hok ⊢
    rcases hct : (TryConfigureCertificates env ing.ns ing.tls).2 with e | u2
    · try rw [hct] at hok
      simp at hok
    · try rw [hct] at hok
      try dsimp only at hok ⊢
      constructor
      · simp [List.countP_cons, List.countP_append, hplc, hauc,
          cert_certs_ok env ing.ns ing.tls hct, isCertPost]
      · simp [List.countP_cons, List.countP_append, hplp, hctp, pem_auth0, isPemFetch]

/-- Certificate and PEM-fetch counts of a successful `syncPathTail` run. -/
theorem counts_syncPathTail_ok (env : IngEnv) (clusterDNS : String) (ing : Ingress)
    (host : String) (p : IngressPath) (existing : Option (String × Int))
    (hok : (syncPathTail env clusterDNS ing host p existing).2 = Except.ok ()) :
    List.countP isCertPost (syncPathTail env clusterDNS ing host p existing).1 = tlsHostCount ing.tls
    ∧ List.countP isPemFetch (syncPathTail env clusterDNS ing host p existing).1 =
        (if annGet ing.annotations jwtAuth0DomainKey == "" then 0 else 1) := by
  unfold syncPathTail at hok ⊢
  try dsimp only at hok ⊢
  rcases hup : env.upsert (buildAPIBody clusterDNS host ing.ns p ing.annotations existing)
      with uid | uid | e
  · try rw [hup] at hok
    try dsimp only at hok ⊢
    exact counts_afterUpsert_ok env ing uid _ hok
  · try rw [hup] at hok
    try dsimp only at hok ⊢
    exact counts_afterUpsert_ok env ing uid _ hok
  · try rw [hup] at hok
    simp at hok

/-- Certificate and PEM-fetch counts of a successful `syncPath` run. -/
theorem counts_syncPath_ok (env : IngEnv) (clusterDNS : String) (ing : Ingress)
    (host : String) (p : IngressPath)
    (hok : (syncPath env clusterDNS ing host p).2 = Except.ok ()) :
    List.countP isCertPost (syncPath env clusterDNS ing host p).1 = tlsHostCount ing.tls
    ∧ List.countP isPemFetch (syncPath env clusterDNS ing host p).1 =
        (if annGet ing.annotations jwtAuth0DomainKey == "" then 0 else 1) := by
  unfold syncPath at hok ⊢
  try dsimp only at hok ⊢
  cases hsv : env.services.any fun s => s.1 == p.serviceName && s.2 == ing.ns
  · try rw [hsv] at hok
    simp at hok
  · try rw [hsv] at hok
    try dsimp only at hok ⊢
    rcases hfp : env.finPatch p.serviceName with e | u
    · try rw [hfp] at hok
      simp at hok
    · try rw [hfp] at hok
      try dsimp only at hok ⊢
      cases hga : env.getAPI (apiNameFor host ing.ns p.path) with
      | found u c =>
        try rw [hga] at hok
        try dsimp only at hok ⊢
        have h := counts_syncPathTail_ok env clusterDNS ing host p (some (u, c)) hok
        constructor
        · simp [List.countP_append, List.countP_cons, h.1, isCertPost]
        · simp [List.countP_append, List.countP_cons, h.2, isPemFetch]
      | notFound =>
        try rw [hga] at hok
        try dsimp only at hok ⊢
        have h := counts_syncPathTail_ok env clusterDNS ing host p none hok
        constructor
        · simp [List.countP_append, List.countP_cons, h.1, isCertPost]
        · simp [List.countP_append, List.countP_cons, h.2, isPemFetch]
      | fail e =>
        try rw [hga] at hok
        simp at hok

/-- Certificate and PEM-fetch counts of a successful path loop. -/
theorem counts_syncPaths_ok (env : IngEnv) (clusterDNS : String) (ing : Ingress)
    (host : String) :
    ∀ ps, (syncPaths env clusterDNS ing host ps).2 = Except.ok () →
      List.countP isCertPost (syncPaths env clusterDNS ing host ps).1
          = ps.length * tlsHostCount ing.tls
      ∧ List.countP isPemFetch (syncPaths env clusterDNS ing host ps).1 =
          ps.length * (if annGet ing.annotations jwtAuth0DomainKey == "" then 0 else 1) := by
  intro ps
  induction ps with
  | nil => intro _; simp [syncPaths]
  | cons p t ih =>
    intro hok
    unfold syncPaths at hok ⊢
    try dsimp only at hok ⊢
    rcases hr : (syncPath env clusterDNS ing host p).2 with e | u
    · try rw [hr] at hok
      simp at hok
    · try rw [hr] at hok
      try dsimp only at hok ⊢
      have h1 := counts_syncPath_ok env clusterDNS ing host p hr
      have h2 := ih hok
      constructor
      · simp only [List.countP_append, h1.1, h2.1, List.length_cons]
        ring
      · simp only [List.countP_append, h1.2, h2.2, List.length_cons]
        ring

/-- Certificate and PEM-fetch counts of a successful rule. -/
theorem counts_syncRule_ok (env : IngEnv) (clusterDNS : String) (ing : Ingress)
    (r : IngressRule) (hok : (syncRule env clusterDNS ing r).2 = Except.ok ()) :
    List.countP isCertPost (syncRule env clusterDNS ing r).1
        = rulePaths r * tlsHostCount ing.tls
    ∧ List.countP isPemFetch (syncRule env clusterDNS ing r).1 =
        rulePaths r * (if annGet ing.annotations jwtAuth0DomainKey == "" then 0 else 1) := by
  unfold syncRule at hok ⊢
  cases hh : r.http with
  | none => simp [rulePaths, hh]
  | some ps =>
    try rw [hh] at hok
    try dsimp only at hok ⊢
    simpa [rulePaths, hh] using counts_syncPaths_ok env clusterDNS ing r.host ps hok

/-- Certificate and PEM-fetch counts of a successful rule loop. -/
theorem counts_syncRules_ok (env : IngEnv) (clusterDNS : String) (ing : Ingress) :
    ∀ rules, (syncRules env clusterDNS ing rules).2 = Except.ok () →
      List.countP isCertPost (syncRules env clusterDNS ing rules).1
          = pathCount rules * tlsHostCount ing.tls
      ∧ List.countP isPemFetch (syncRules env clusterDNS ing rules).1 =
          pathCount rules * (if annGet ing.annotations jwtAuth0DomainKey == "" then 0 else 1) := by
  intro rules
  induction rules with
  | nil => intro _; simp [syncRules, pathCount]
  | cons r rest ih =>
    intro hok
    unfold syncRules at hok ⊢
    try dsimp only at hok ⊢
    rcases hr : (syncRule env clusterDNS ing r).2 with e | u
    · try rw [hr] at hok
      simp at hok
    · try rw [hr] at hok
      try dsimp only at hok ⊢
      have h1 := counts_syncRule_ok env clusterDNS ing r hr
      have h2 := ih hok
      constructor
      · simp only [List.countP_append, h1.1, h2.1, pathCount, List.map_cons, List.sum_cons]
        ring
      · simp only [List.countP_append, h1.2, h2.2, pathCount, List.map_cons, List.sum_cons]
        ring

/-! ## Helper lemmas: no subroutine of the rule loop patches the dirty annotation -/

theorem dirty_zero_afterUpsert (env : IngEnv) (ing : Ingress) (uid : String) (body : KongAPI) :
    List.countP isDirtyAction (afterUpsert env ing uid body).1 = 0 := by
  have h1 := countP_plugins_zero isDirtyAction (fun _ => rfl) (fun _ _ _ => rfl)
    env uid ing.annotations
  have h2 := countP_certs_zero isDirtyAction (fun _ _ => rfl) (fun _ _ _ => rfl)
    env ing.ns ing.tls
  have h3 := countP_auth0_zero isDirtyAction (fun _ => rfl) (fun _ => rfl) (fun _ => rfl)
    (fun _ => rfl) (fun _ _ _ _ => rfl) env ing.annotations
  unfold afterUpsert
  try dsimp only
  repeat' split
  all_goals simp [List.countP_cons, List.countP_append, h1, h2, h3, isDirtyAction]

theorem dirty_zero_syncPathTail (env : IngEnv) (clusterDNS : String) (ing : Ingress)
    (host : String) (p : IngressPath) (existing : Option (String × Int)) :
    List.countP isDirtyAction (syncPathTail env clusterDNS ing host p existing).1 = 0 := by
  unfold syncPathTail
  try dsimp only
  repeat' split
  all_goals simp [List.countP_cons, dirty_zero_afterUpsert, isDirtyAction]

theorem dirty_zero_syncPath (env : IngEnv) (clusterDNS : String) (ing : Ingress)
    (host : String) (p : IngressPath) :
    List.countP isDirtyAction (syncPath env clusterDNS ing host p).1 = 0 := by
  unfold syncPath
  try dsimp only
  repeat' split
  all_goals simp [List.countP_cons, List.countP_append, dirty_zero_syncPathTail, isDirtyAction]

theorem dirty_zero_syncPaths (env : IngEnv) (clusterDNS : String) (ing : Ingress)
    (host : String) :
    ∀ ps, List.countP isDirtyAction (syncPaths env clusterDNS ing host ps).1 = 0 := by
  intro ps
  induction ps with
  | nil => simp [syncPaths]
  | cons p t ih =>
    unfold syncPaths
    try dsimp only
    split <;> simp [List.countP_append, dirty_zero_syncPath, ih]

theorem dirty_zero_syncRule (env : IngEnv) (clusterDNS : String) (ing : Ingress)
    (r : IngressRule) :
    List.countP isDirtyAction (syncRule env clusterDNS ing r).1 = 0 := by
  unfold syncRule
  cases r.http <;> simp [dirty_zero_syncPaths]

theorem dirty_zero_syncRules (env : IngEnv) (clusterDNS : String) (ing : Ingress) :
    ∀ rules, List.countP isDirtyAction (syncRules env clusterDNS ing rules).1 = 0 := by
  intro rules
  induction rules with
  | nil => simp [syncRules]
  | cons r rest ih =>
    unfold syncRules
    try dsimp only
    split <;> simp [List.countP_append, dirty_zero_syncRule, ih]

/-- The trace of `setDirty` does not depend on the patch outcome. -/
theorem setDirty_fst (dr : Except String Unit) (ing : Ingress) :
    (setDirty dr ing).1 =
      if annGet ing.annotations dirtyKey == "true" then []
      else [IngAction.patchDirty ing.ns ing.name] := by
  unfold setDirty
  split <;> rfl

/-! ## Helper lemmas: plugin configuration -/

/-- Every plugin created by one annotation step bears a recognized name. -/
theorem onePlugin_create_recognized (env : IngEnv) (uuid a v u nm c : String) :
    IngAction.createPlugin u nm c ∈ (configureOnePlugin env uuid a v).1 →
      recognizedPlugin nm = true := by
  unfold configureOnePlugin
  try dsimp only
  repeat' split
  all_goals intro hmem
  all_goals simp_all

/-- Every plugin created during plugin configuration bears a recognized name. -/
theorem plugins_create_recognized (env : IngEnv) (uuid : String) :
    ∀ anns u nm c, IngAction.createPlugin u nm c ∈ (ConfigurePluginsForAPI env uuid anns).1 →
      recognizedPlugin nm = true := by
  intro anns
  induction anns with
  | nil => intro u nm c h; simp [ConfigurePluginsForAPI] at h
  | cons hd tl ih =>
    intro u nm c h
    obtain ⟨a0, v0⟩ := hd
    unfold ConfigurePluginsForAPI at h
    try dsimp only at h
    rcases hr : (configureOnePlugin env uuid a0 v0).2 with e | un
    · try rw [hr] at h
      try dsimp only at h
      exact onePlugin_create_recognized env uuid a0 v0 u nm c h
    · try rw [hr] at h
      try dsimp only at h
      rcases List.mem_append.mp h with h1 | h2
      · exact onePlugin_create_recognized env uuid a0 v0 u nm c h1
      · exact ih u nm c h2

/-- If some annotation's step fails, the whole plugin configuration fails. -/
theorem plugins_err_prop (env : IngEnv) (uuid : String) :
    ∀ anns a v, (a, v) ∈ anns →
      exceptIsOk (configureOnePlugin env uuid a v).2 = false →
      exceptIsOk (ConfigurePluginsForAPI env uuid anns).2 = false := by
  intro anns
  induction anns with
  | nil => intro a v h _; simp at h
  | cons hd tl ih =>
    intro a v hmem hbad
    obtain ⟨a0, v0⟩ := hd
    rw [List.mem_cons] at hmem
    unfold ConfigurePluginsForAPI
    try dsimp only
    rcases hr : (configureOnePlugin env uuid a0 v0).2 with e | un
    · simp [exceptIsOk]
    · rcases hmem with heq | hmem
      · injection heq with h1 h2
        subst h1; subst h2
        rw [hr] at hbad
        simp [exceptIsOk] at hbad
      · simpa [exceptIsOk] using ih a v hmem hbad

/-! ## Helper lemma: the first call of the per-port GC body -/

/-- The per-port GC body always begins by listing the Kong APIs filtered by
the upstream URL of that port. -/
theorem syncServicePort_head (env : SvcEnv) (clusterDNS ns name : String) (port : Int) :
    ∃ t r, syncServicePort env clusterDNS ns name port =
      (SvcAction.listAPIs
          (getUpstream (if port == 443 then "https" else "http") ns name port clusterDNS) :: t,
        r) := by
  unfold syncServicePort
  try dsimp only
  rcases h1 : env.apiList
      (getUpstream (if port == 443 then "https" else "http") ns name port clusterDNS)
      with e | apis
  · try dsimp only
    exact ⟨[], _, rfl⟩
  · try dsimp only
    rcases h2 : (deleteAPIs env apis).2 with e | u
    · try dsimp only
      exact ⟨(deleteAPIs env apis).1, _, rfl⟩
    · try dsimp only
      rcases h3 : env.patchSvc ns name with e | u2
      · try dsimp only
        exact ⟨(deleteAPIs env apis).1 ++ [SvcAction.patchFinalizers ns name], _, rfl⟩
      · try dsimp only
        exact ⟨(deleteAPIs env apis).1 ++ [SvcAction.patchFinalizers ns name], _, rfl⟩

/-! ## Claim theorems -/

/-- Claim C1 (code-bug evidence): evaluating `syncServices` on a deleted
two-port service in an all-success environment.  The finalizer-removal
patch appears at trace position 2, after the first port's gateway APIs are
deleted but before the second port's APIs are listed (position 3) and
deleted (position 4), and a second patch follows the second port: the
source emits the patch inside the per-port loop, while the spec requires
it once, only after all ports are cleaned. -/
theorem syncServices_two_port_trace :
    syncServices svcEnvGC "cluster.local" (Except.ok (some svcTwoPorts)) =
      ([SvcAction.listAPIs "http://web.app.cluster.local:80",
        SvcAction.deleteAPI "api-http://web.app.cluster.local:80",
        SvcAction.patchFinalizers "app" "web",
        SvcAction.listAPIs "http://web.app.cluster.local:8080",
        SvcAction.deleteAPI "api-http://web.app.cluster.local:8080",
        SvcAction.patchFinalizers "app" "web"], Except.ok ()) := by
  rfl

/-- Claim C2: the gateway API name built by ingress sync equals
`{host}~{namespace}~{adler32(normalized path)}`, normalization maps both
`""` and `"/"` to `"/"`, and hence both paths produce the same name under
the same host and namespace. -/
theorem apiName_format (clusterDNS host ns : String) (p : IngressPath)
    (anns : List (String × String)) (ex : Option (String × Int)) :
    (buildAPIBody clusterDNS host ns p anns ex).name
        = host ++ "~" ++ ns ++ "~" ++ genAdler32Hash (normalizePath p.path)
    ∧ normalizePath "" = "/"
    ∧ normalizePath "/" = "/"
    ∧ apiNameFor host ns "" = apiNameFor host ns "/" := by
  refine ⟨rfl, by decide, by decide, ?_⟩
  have h : normalizePath "" = normalizePath "/" := by decide
  unfold apiNameFor
  rw [h]

/-- Claim C3: for an ingress present in the store, the dirty-annotation
patch is issued iff `numRequeues > autoClaimMaxRetries` and the annotation
is not already `"true"`; and the entire sync output is independent of the
outcome of that patch call (a patch failure never fails the sync). -/
theorem syncIngress_dirty_iff (env : IngEnv) (clusterDNS : String) (ing : Ingress)
    (n m : Int) (dr1 dr2 : Except String Unit) :
    (IngAction.patchDirty ing.ns ing.name ∈
        (syncIngress env clusterDNS (Except.ok (some ing)) n m dr1).1
      ↔ n > m ∧ annGet ing.annotations dirtyKey ≠ "true")
    ∧ syncIngress env clusterDNS (Except.ok (some ing)) n m dr1
        = syncIngress env clusterDNS (Except.ok (some ing)) n m dr2 := by
  have hz := dirty_zero_syncRules env clusterDNS ing ing.rules
  have hnotin : IngAction.patchDirty ing.ns ing.name ∉
      (syncRules env clusterDNS ing ing.rules).1 := by
    intro hmem
    have h := List.countP_eq_zero.mp hz _ hmem
    simp [isDirtyAction] at h
  constructor
  · simp only [syncIngress, List.mem_append]
    by_cases hgt : n > m
    · by_cases hd : annGet ing.annotations dirtyKey = "true"
      · simp [hgt, hd, setDirty_fst, hnotin]
      · simp [hgt, hd, setDirty_fst, hnotin]
    · simp [hgt, hnotin]
  · simp [syncIngress, setDirty_fst]

/-- Claim C4: an annotation `kolihub.io/plugin-{name}` with an unrecognized
name makes plugin configuration fail, and no plugin bearing that name is
ever created. -/
theorem configurePlugins_unknown_name_fails (env : IngEnv) (uuid : String)
    (anns : List (String × String)) (a v nm : String)
    (hmem : (a, v) ∈ anns) (hpfx : hasPrefixStr pluginPfx a = true)
    (hnm : dropStr a pluginPfx.length = nm) (hrec : recognizedPlugin nm = false) :
    exceptIsOk (ConfigurePluginsForAPI env uuid anns).2 = false
    ∧ ∀ u c, IngAction.createPlugin u nm c ∉ (ConfigurePluginsForAPI env uuid anns).1 := by
  have h0 : exceptIsOk (configureOnePlugin env uuid a v).2 = false := by
    simp [configureOnePlugin, hpfx, hnm, hrec, exceptIsOk]
  refine ⟨plugins_err_prop env uuid anns a v hmem h0, ?_⟩
  intro u c hmem2
  have hrec2 := plugins_create_recognized env uuid anns u nm c hmem2
  rw [hrec] at hrec2
  simp at hrec2

/-- Witness for C4 at the concrete annotation `kolihub.io/plugin-foo`. -/
theorem configurePlugins_unknown_name_fails_witness :
    exceptIsOk (ConfigurePluginsForAPI envAllOk "uid-1" [("kolihub.io/plugin-foo", "x")]).2
      = false :=
  (configurePlugins_unknown_name_fails envAllOk "uid-1" [("kolihub.io/plugin-foo", "x")]
    "kolihub.io/plugin-foo" "x" "foo" (by decide) (by decide) (by decide) (by decide)).1

/-- Claim C5: for a recognized plugin annotation whose name is already
listed on the API uid, the step performs only the list call — it creates
nothing and the gateway's plugin store is left unchanged, whatever the
annotation's value. -/
theorem configurePlugins_existing_skip (env : IngEnv) (uuid a v nm : String)
    (ps : List (String × String))
    (hpfx : hasPrefixStr pluginPfx a = true) (hnm : dropStr a pluginPfx.length = nm)
    (hrec : recognizedPlugin nm = true) (hdec : env.decode nm v = true)
    (hlist : env.listPlugins uuid = Except.ok ps)
    (hfound : ps.any (fun q => q.1 == nm) = true) :
    configureOnePlugin env uuid a v = ([IngAction.listPlugins uuid], Except.ok ())
    ∧ ∀ st : PluginState, applyPluginActions st (configureOnePlugin env uuid a v).1 = st := by
  have h1 : configureOnePlugin env uuid a v = ([IngAction.listPlugins uuid], Except.ok ()) := by
    simp [configureOnePlugin, hpfx, hnm, hrec, hdec, hlist, hfound]
  refine ⟨h1, ?_⟩
  intro st
  rw [h1]
  rfl

/-- Witness for C5: a `cors` annotation with a new value is skipped when a
`cors` plugin with a different config is already attached. -/
theorem configurePlugins_existing_skip_witness :
    configureOnePlugin envExisting "uid-1" "kolihub.io/plugin-cors" "new-config"
      = ([IngAction.listPlugins "uid-1"], Except.ok ()) :=
  (configurePlugins_existing_skip envExisting "uid-1" "kolihub.io/plugin-cors" "new-config"
    "cors" [("cors", "old-config")] (by decide) (by decide) (by decide) rfl rfl (by decide)).1

/-- Claim C6: both the ingress sync (via `buildAPIBody`) and the service
sync (first call of the per-port GC body) compute the upstream URL as
`{proto}://{svcName}.{namespace}.{clusterDNS}:{port}` with
`proto = "https"` iff the port is 443. -/
theorem upstream_format (env : SvcEnv) (clusterDNS host ns svcName : String)
    (p : IngressPath) (anns : List (String × String)) (ex : Option (String × Int))
    (port : Int) :
    (buildAPIBody clusterDNS host ns p anns ex).upstreamURL
        = upstreamSpec ns p.serviceName p.servicePort clusterDNS
    ∧ ∃ t r, syncServicePort env clusterDNS ns svcName port =
        (SvcAction.listAPIs (upstreamSpec ns svcName port clusterDNS) :: t, r) :=
  ⟨rfl, syncServicePort_head env clusterDNS ns svcName port⟩

/-- Claim C7: the strip-uri flag of the built record equals the boolean
parse of `ingress.kubernetes.io/strip-uri`, defaulting to `true` when
missing, empty or unparsable; preserve-host likewise defaults to `false`;
and with arbitrary (possibly unparsable) values in both annotations the
path sync still succeeds when every external call succeeds. -/
theorem stripUri_preserveHost_defaults (env : IngEnv) (clusterDNS host ns : String)
    (p : IngressPath) (anns : List (String × String)) (ex : Option (String × Int))
    (s t : String)
    (hsvc : env.services.any (fun q => q.1 == p.serviceName && q.2 == ns) = true)
    (hfin : env.finPatch p.serviceName = Except.ok ())
    (hget : ∀ e, env.getAPI (apiNameFor host ns p.path) ≠ GetAPIResult.fail e)
    (hup : ∀ b e, env.upsert b ≠ UpsertResult.fail e) :
    (buildAPIBody clusterDNS host ns p anns ex).stripUri
        = (parseBool (annGet anns stripUriKey)).getD true
    ∧ (buildAPIBody clusterDNS host ns p anns ex).preserveHost
        = (parseBool (annGet anns preserveHostKey)).getD false
    ∧ (syncPath env clusterDNS (annOnlyIng ns s t) host p).2 = Except.ok () := by
  refine ⟨?_, ?_, ?_⟩
  · cases hpb : parseBool (annGet anns stripUriKey) <;> simp [buildAPIBody, hpb]
  · cases hpb : parseBool (annGet anns preserveHostKey) <;> simp [buildAPIBody, hpb]
  · have hps : ∀ u : String,
        ConfigurePluginsForAPI env u [(stripUriKey, s), (preserveHostKey, t)]
          = ([], Except.ok ()) := by
      intro u
      have h1 : hasPrefixStr pluginPfx stripUriKey = false := by decide
      have h2 : hasPrefixStr pluginPfx preserveHostKey = false := by decide
      simp [ConfigurePluginsForAPI, configureOnePlugin, h1, h2]
    have hjwt : annGet [(stripUriKey, s), (preserveHostKey, t)] jwtAuth0DomainKey = "" := by
      have h1 : (jwtAuth0DomainKey == stripUriKey) = false := by decide
      have h2 : (jwtAuth0DomainKey == preserveHostKey) = false := by decide
      simp [annGet, List.lookup, h1, h2]
    have hauth : TryAutoConfigureAuth0 env [(stripUriKey, s), (preserveHostKey, t)]
        = ([], Except.ok ()) := by
      simp [TryAutoConfigureAuth0, hjwt]
    have hafter : ∀ u body, (afterUpsert env (annOnlyIng ns s t) u body).2 = Except.ok () := by
      intro u body
      simp [afterUpsert, annOnlyIng, hps, hauth, TryConfigureCertificates]
    have htail : ∀ existing,
        (syncPathTail env clusterDNS (annOnlyIng ns s t) host p existing).2
          = Except.ok () := by
      intro existing
      unfold syncPathTail
      try dsimp only
      rcases hub : env.upsert
          (buildAPIBody clusterDNS host (annOnlyIng ns s t).ns p
            (annOnlyIng ns s t).annotations existing) with uid | uid | e
      · try dsimp only
        exact hafter uid _
      · try dsimp only
        exact hafter uid _
      · exact absurd hub (hup _ e)
    unfold syncPath
    try dsimp only
    have hsvc2 : env.services.any
        (fun q => q.1 == p.serviceName && q.2 == (annOnlyIng ns s t).ns) = true := hsvc
    rw [hsvc2]
    try dsimp only
    rw [hfin]
    try dsimp only
    cases hga : env.getAPI (apiNameFor host (annOnlyIng ns s t).ns p.path) with
    | found u c =>
      try dsimp only
      exact htail (some (u, c))
    | notFound =>
      try dsimp only
      exact htail none
    | fail e => exact absurd hga (hget e)

/-- Witness for C7 with unparsable annotation values `zzz` and `qqq`. -/
theorem stripUri_preserveHost_defaults_witness :
    (syncPath envAllOk "cluster.local" (annOnlyIng "app" "zzz" "qqq") "h"
        { path := "/v1", serviceName := "svc1", servicePort := 80 }).2 = Except.ok () :=
  (stripUri_preserveHost_defaults envAllOk "cluster.local" "h" "app"
    { path := "/v1", serviceName := "svc1", servicePort := 80 } [] none "zzz" "qqq"
    (by decide) rfl (fun e h => by simp [envAllOk] at h)
    (fun b e h => by simp [envAllOk] at h)).2.2

/-- Claim C8: a deleted service with no ports: the GC sync returns success
with an empty trace — no API listed or deleted and, in particular, no
finalizer-removal patch, so the finalizers stay and deletion stays
blocked. -/
theorem syncServices_no_ports_noop (env : SvcEnv) (clusterDNS name ns ts : String) :
    syncServices env clusterDNS
        (Except.ok (some { name := name, ns := ns, ports := [],
                           deletionTimestamp := some ts }))
      = ([], Except.ok ()) := rfl

/-- Claim C9: the built record's URI list is `[normalized path]` exactly
when the path is non-empty and absent (`none`) when the path is `""`;
paths `""` and `"/"` share the name but differ in the URI field. -/
theorem apiBody_uris_empty_path (clusterDNS host ns svcName : String) (port : Int)
    (anns : List (String × String)) (ex : Option (String × Int)) (p : IngressPath) :
    (buildAPIBody clusterDNS host ns p anns ex).uris
        = (if p.path = "" then none else some [normalizePath p.path])
    ∧ (buildAPIBody clusterDNS host ns
          { path := "", serviceName := svcName, servicePort := port } anns ex).name
        = (buildAPIBody clusterDNS host ns
          { path := "/", serviceName := svcName, servicePort := port } anns ex).name
    ∧ (buildAPIBody clusterDNS host ns
          { path := "", serviceName := svcName, servicePort := port } anns ex).uris = none
    ∧ (buildAPIBody clusterDNS host ns
          { path := "/", serviceName := svcName, servicePort := port } anns ex).uris
        = some ["/"] := by
  refine ⟨?_, ?_, ?_, ?_⟩
  · by_cases hp : p.path = "" <;> simp [buildAPIBody, hp]
  · have h : normalizePath "" = normalizePath "/" := by decide
    simp [buildAPIBody, apiNameFor, h]
  · simp [buildAPIBody]
  · have h1 : (("/" : String) == "") = false := by decide
    have h2 : normalizePath "/" = "/" := by decide
    simp [buildAPIBody, h1, h2]

/-- Claim C10: on a successful ingress sync, certificates are posted once
per (rule, path) pair and per (TLS entry, host) pair — an ingress with N
paths posts each declared certificate N times — and the identity-provider
certificate is fetched once per (rule, path) pair whenever the Auth0
annotation is present and non-empty. -/
theorem syncIngress_certs_per_path (env : IngEnv) (clusterDNS : String) (ing : Ingress)
    (n m : Int) (dr : Except String Unit)
    (hok : (syncIngress env clusterDNS (Except.ok (some ing)) n m dr).2 = Except.ok ()) :
    List.countP isCertPost (syncIngress env clusterDNS (Except.ok (some ing)) n m dr).1
        = pathCount ing.rules * tlsHostCount ing.tls
    ∧ List.countP isPemFetch (syncIngress env clusterDNS (Except.ok (some ing)) n m dr).1 =
        pathCount ing.rules *
          (if annGet ing.annotations jwtAuth0DomainKey == "" then 0 else 1) := by
  have hok2 : (syncRules env clusterDNS ing ing.rules).2 = Except.ok () := by
    simpa [syncIngress] using hok
  have h := counts_syncRules_ok env clusterDNS ing ing.rules hok2
  have hdz : ∀ q : IngAction → Bool,
      (∀ a b, q (IngAction.patchDirty a b) = false) →
      List.countP q (if n > m then (setDirty dr ing).1 else []) = 0 := by
    intro q hq
    rw [setDirty_fst]
    repeat' split
    all_goals simp [List.countP_cons, hq]
  constructor
  · show List.countP isCertPost
        ((if n > m then (setDirty dr ing).1 else [])
          ++ (syncRules env clusterDNS ing ing.rules).1) = _
    rw [List.countP_append, hdz isCertPost (fun _ _ => rfl), h.1]
    exact Nat.zero_add _
  · show List.countP isPemFetch
        ((if n > m then (setDirty dr ing).1 else [])
          ++ (syncRules env clusterDNS ing ing.rules).1) = _
    rw [List.countP_append, hdz isPemFetch (fun _ _ => rfl), h.2]
    exact Nat.zero_add _

/-- Witness for C10: two paths and one TLS host give two certificate posts
and two identity-provider fetches. -/
theorem syncIngress_certs_per_path_witness :
    List.countP isCertPost
        (syncIngress envAllOk "cluster.local" (Except.ok (some ingTwoPaths)) 0 3
          (Except.ok ())).1
      = pathCount ingTwoPaths.rules * tlsHostCount ingTwoPaths.tls :=
  (syncIngress_certs_per_path envAllOk "cluster.local" ingTwoPaths 0 3 (Except.ok ())
    (by rfl)).1

end KongIngress
